import Mathlib

/-!
Formal model of the Supplychain-AI recommendation engine
(`backend/main.py`, authenticated variant, and `backend/app/main.py`,
unauthenticated variant).

The core routine `compute_recommendations` consumes a pandas DataFrame and
produces a sorted list of `Recommendation` records.  We embed it shallowly:

* A `Table` is a list of column names plus a list of `Row`s.  Cells are
  modelled after the upstream normalisation steps that the function itself
  performs (`pd.to_datetime(..., errors="coerce")` and
  `pd.to_numeric(..., errors="coerce")`): a `Date` cell is `Option ℤ`
  (day number; `none` is an unparseable date, i.e. `NaT`), and each numeric
  cell is `Option ℚ` (`none` is `NaN`, the result of a missing or
  unparseable value).  Finite Python floats are modelled as exact rationals.
* `NaN` never flows back into arithmetic silently: every place the Python
  code can see a `NaN` is modelled with an explicit `Option`/`PFloat` case,
  mirroring CPython semantics at that spot (documented inline).
* The ambient clock `date.today()` is the explicit `today : ℤ` parameter.
* `raise ValueError(...)` is modelled by `Except.error`; the function body
  has exactly two raise sites: the explicit missing-columns raise, and
  `int(...)` applied to `NaN` (which raises `ValueError: cannot convert
  float NaN to integer`).
-/

/-- Error outcomes of `compute_recommendations`.  Both are `ValueError` in
Python; we separate the explicit missing-columns raise from the implicit
`int(NaN)` raise. -/
inductive RecError where
  | missingColumns (missing : List String)
  | nanToInt
deriving DecidableEq

/-- One input row after date parsing and numeric coercion.  `none` models
`NaT` (for `date`) or `NaN` (for the numeric cells). -/
structure Row where
  sku : String
  date : Option ℤ
  unitsSold : Option ℚ
  onHand : Option ℚ
  leadTimeDays : Option ℚ
  moq : Option ℚ
  cost : Option ℚ
deriving DecidableEq

/-- A DataFrame: the set of column names present, and the rows.  Cells of
columns not listed in `cols` are ignored by the engine (it consults
membership in `df.columns` before reading them). -/
structure Table where
  cols : List String
  rows : List Row
deriving DecidableEq

/-- Output record; mirrors the pydantic `Recommendation` model, which is
field-for-field identical in the two variants.  `current_stock` is a Python
float that can be `NaN`, hence `Option ℚ`.  `reorder_by` is an ISO date
string or `None` in Python; we keep the underlying day number. -/
structure Recommendation where
  sku : String
  current_stock : Option ℚ
  avg_daily_sales : ℚ
  forecast_30d : ℚ
  reorder_qty : ℚ
  reorder_by : Option ℤ
  lead_time_days : ℤ
  moq : Option ℤ
  unit_cost : Option ℚ
  status : String
  reason : String
deriving DecidableEq

deriving instance DecidableEq for Except

/-- REQUIRED_COLS = ["SKU", "Date", "UnitsSold", "OnHand", "LeadTimeDays"] -/
def REQUIRED_COLS : List String := ["SKU", "Date", "UnitsSold", "OnHand", "LeadTimeDays"]

/-- The value of `days_until_stockout`, a Python float that is either
finite, `float("inf")` (when `avg_daily == 0` branch is not taken but the
guard `avg_daily > 0` fails), or `NaN` (when `on_hand` is `NaN`). -/
inductive PFloat where
  | fin (q : ℚ)
  | inf
  | nan
deriving DecidableEq

/-- Python comparison `x <= z` for `x` a possibly non-finite float and a
finite `z`: `inf <= z` and `NaN <= z` are both `False`. -/
def PFloat.leZ (x : PFloat) (z : ℚ) : Bool :=
  match x with
  | .fin q => decide (q ≤ z)
  | .inf => false
  | .nan => false

/-- Python `math.isfinite`. -/
def PFloat.isfinite (x : PFloat) : Bool :=
  match x with
  | .fin _ => true
  | _ => false

/-- Python `int(q)` on a finite float: truncation toward zero. -/
def truncQ (q : ℚ) : ℤ := if 0 ≤ q then ⌊q⌋ else ⌈q⌉

/-- Sort key used on rows: the parsed date.  Groups reaching the engine
contain only parseable dates (rows with `NaT` were dropped), so the
default is never consulted. -/
def dateKey (r : Row) : ℤ := r.date.getD 0

/-- Row order for `g.sort_values("Date")`: ascending by date. -/
def dateLe (a b : Row) : Prop := dateKey a ≤ dateKey b

instance : DecidableRel dateLe := fun a b => inferInstanceAs (Decidable (dateKey a ≤ dateKey b))

/-- g.sort_values("Date"): sort the group by date ascending.  (The source
uses the default pandas quicksort; order among equal dates is unspecified
there, we model the stable order.) -/
def sortByDate (g : List Row) : List Row := List.insertionSort dateLe g

/-- g["Date"].max() over a group (0 on the empty list, never consulted). -/
def maxDateOf : List Row → ℤ
  | [] => 0
  | [r] => dateKey r
  | r :: rs => max (dateKey r) (maxDateOf rs)

/-- Placeholder row; `List.getLastD` is only ever applied to non-empty
groups, so this row never reaches the arithmetic. -/
def defaultRow : Row := ⟨"", none, none, none, none, none, none⟩

/-- last = g.iloc[-1]: the chronologically last row of the (sorted) group. -/
def lastRow (gs : List Row) : Row := gs.getLastD defaultRow

/-- The trailing 28-day demand window: rows with
`Date >= g["Date"].max() - 28 days`, falling back to the whole group when
the selection is empty (`if recent.empty: recent = g`). -/
def recentWindow (gs : List Row) : List Row :=
  let w := gs.filter (fun r => decide (maxDateOf gs - 28 ≤ dateKey r))
  if w.isEmpty then gs else w

/-- recent.groupby(recent["Date"].dt.date)["UnitsSold"].sum() followed by
`.mean()`: sum `UnitsSold` per distinct date (pandas sums with
`skipna=True`, so `NaN` contributes 0 and an all-`NaN` day sums to 0.0),
then average the per-day sums over the distinct dates present; 0.0 when
the window is empty. -/
def avgDaily (recent : List Row) : ℚ :=
  let ds := (recent.map dateKey).eraseDups
  if ds.isEmpty then 0
  else (ds.map (fun d =>
    ((recent.filter (fun r => decide (dateKey r = d))).map (fun r => r.unitsSold.getD 0)).sum)).sum
      / (ds.length : ℚ)

/-- pandas `Series.mean()` with `skipna=True`: `none` (that is `NaN`) when
no non-`NaN` value exists. -/
def meanOpt (l : List (Option ℚ)) : Option ℚ :=
  let v := l.filterMap id
  if v.isEmpty then none else some (v.sum / (v.length : ℚ))

/-- target_stock = avg_daily * (horizon_days + max(lead_time, 0)) -/
def targetStock (avg : ℚ) (horizon lead : ℤ) : ℚ := avg * ((horizon + max lead 0 : ℤ) : ℚ)

/-- reorder_qty_raw = max(0.0, target_stock - on_hand).  When `on_hand` is
`NaN` the subtraction is `NaN`, and CPython `max(0.0, nan)` keeps its first
argument because `nan > 0.0` is `False`, so the result is `0.0`. -/
def rawQty (target : ℚ) (on_hand : Option ℚ) : ℚ :=
  match on_hand with
  | some q => max 0 (target - q)
  | none => 0

/-- _ceil_to_moq from the source:
`None`/non-positive moq gives `float(max(0, qty))`, non-positive qty gives
`0.0`, otherwise `float(int(math.ceil(qty / moq) * moq))`. -/
def ceil_to_moq (qty : ℚ) (moq : Option ℤ) : ℚ :=
  match moq with
  | none => max 0 qty
  | some m =>
    if m ≤ 0 then max 0 qty
    else if qty ≤ 0 then 0
    else ((⌈qty / (m : ℚ)⌉ * m : ℤ) : ℚ)

/-- days_until_stockout = (on_hand / avg_daily) if avg_daily > 0 else
float("inf").  `NaN / avg` is `NaN`. -/
def daysUntilStockout (on_hand : Option ℚ) (avg : ℚ) : PFloat :=
  if 0 < avg then
    match on_hand with
    | some q => .fin (q / avg)
    | none => .nan
  else .inf

/-- The reorder-by date: when `days_until_stockout` is finite,
`today + max(0, floor(days_until_stockout - lead_time))`; `None` when it
is `inf` or `NaN` (`math.isfinite` is `False` for both). -/
def reorderByDate (today : ℤ) (dus : PFloat) (lead : ℤ) : Option ℤ :=
  match dus with
  | .fin d => some (today + max 0 ⌊d - (lead : ℚ)⌋)
  | _ => none

/-- Status classification: GREEN when `avg_daily == 0`; otherwise RED when
`days_until_stockout <= lead_time`, AMBER when
`days_until_stockout <= lead_time + 7`, GREEN otherwise. -/
def statusOf (avg : ℚ) (dus : PFloat) (lead : ℤ) : String :=
  if avg = 0 then "GREEN"
  else if dus.leZ ((lead : ℤ) : ℚ) then "RED"
  else if dus.leZ (((lead + 7 : ℤ)) : ℚ) then "AMBER"
  else "GREEN"

/-- Python round-half-even of `q * 10 ^ p` to an integer, the rounding
used by the `f"{x:.pf}"` format specifier on an exactly-representable
value. -/
def roundHalfEvenScaled (q : ℚ) (p : ℕ) : ℤ :=
  let x : ℚ := q * ((10 : ℤ) ^ p : ℤ)
  let f : ℤ := ⌊x⌋
  let frac : ℚ := x - (f : ℚ)
  if frac < 1/2 then f
  else if 1/2 < frac then f + 1
  else if f % 2 = 0 then f else f + 1

/-- Left-pad a digit string with zeros to length `p`. -/
def padZeros (s : String) (p : ℕ) : String :=
  if s.length < p then String.mk (List.replicate (p - s.length) '0') ++ s else s

/-- Python `f"{q:.pf}"` fixed-point formatting of a finite float with `p`
decimal places (negative sign kept even when the rounded magnitude is 0,
as CPython does). -/
def fmtF (q : ℚ) (p : ℕ) : String :=
  let n : ℤ := roundHalfEvenScaled q p
  let sign : String := if q < 0 then "-" else ""
  let mag : ℕ := n.natAbs
  if p = 0 then sign ++ toString mag
  else sign ++ toString (mag / 10 ^ p) ++ "." ++ padZeros (toString (mag % 10 ^ p)) p

/-- The trend annotation: last 14 days of the group vs the preceding 14;
both `UnitsSold` means are taken with `skipna`; the note is appended only
when both windows are non-empty, the prior mean is positive, and the
percent change reaches 10 in magnitude.  (When the recent mean is `NaN`
the percent change is `NaN` and `abs(nan) >= 10` is `False`.) -/
def trendNote (gs : List Row) : String :=
  let m := maxDateOf gs
  let recent14 := gs.filter (fun r => decide (m - 14 ≤ dateKey r))
  let prev14 := gs.filter (fun r => decide (dateKey r < m - 14 ∧ m - 28 ≤ dateKey r))
  if recent14.isEmpty || prev14.isEmpty then ""
  else
    match meanOpt (prev14.map (fun r => r.unitsSold)) with
    | none => ""
    | some p =>
      if 0 < p then
        match meanOpt (recent14.map (fun r => r.unitsSold)) with
        | none => ""
        | some r =>
          let pct := (r - p) / p * 100
          if 10 ≤ (if pct < 0 then -pct else pct) then
            " Demand changed ~" ++ fmtF pct 0 ++ "% vs prior 2 weeks."
          else ""
      else ""

/-- The non-zero-demand reason sentence (the f-string of the source). -/
def mkReason (avg : ℚ) (lead horizon : ℤ) (forecast qty : ℚ) (note : String) : String :=
  "Avg daily sales " ++ fmtF avg 1 ++ ". Lead time " ++ toString lead ++ "d. " ++
  "Forecast next " ++ toString horizon ++ "d " ++ fmtF forecast 0 ++ ". " ++
  "Recommend reorder " ++ fmtF qty 0 ++ " to cover horizon + lead time." ++ note

/-- The body of the per-SKU loop iteration of `compute_recommendations`.

Snapshot subtleties mirrored from CPython/pandas semantics:
* `on_hand = float(last.get("OnHand", 0) or 0)`: `0.0` is falsy and maps
  to `0.0`; any other numeric value passes through; `NaN` is truthy, so a
  `NaN` cell yields `float(NaN) = NaN` (modelled `none`), not 0.
* `lead_time = int(last.get("LeadTimeDays", 0) or 0)`: likewise `NaN` is
  truthy, and `int(NaN)` raises `ValueError`; a parseable value is
  truncated toward zero.
* `moq`/`unit_cost` use `pd.notna`, so `NaN` (and an absent column)
  correctly become `None`. -/
def processSKU (today horizon : ℤ) (hasMOQ hasCost : Bool) (sku : String) (g : List Row) :
    Except RecError Recommendation :=
  let gs := sortByDate g
  let last := lastRow gs
  let on_hand : Option ℚ := last.onHand
  match last.leadTimeDays with
  | none => .error .nanToInt
  | some ltq =>
    let lead_time : ℤ := truncQ ltq
    let moq : Option ℤ := (if hasMOQ then last.moq else none).map truncQ
    let unit_cost : Option ℚ := if hasCost then last.cost else none
    let avg_daily : ℚ := avgDaily (recentWindow gs)
    let forecast_30d : ℚ := avg_daily * (horizon : ℚ)
    let reorder_qty : ℚ := ceil_to_moq (rawQty (targetStock avg_daily horizon lead_time) on_hand) moq
    let dus : PFloat := daysUntilStockout on_hand avg_daily
    let reorder_by : Option ℤ := reorderByDate today dus lead_time
    let status : String := statusOf avg_daily dus lead_time
    let reason : String :=
      if avg_daily = 0 then "No recent sales detected; no reorder recommendation."
      else mkReason avg_daily lead_time horizon forecast_30d reorder_qty (trendNote gs)
    .ok ⟨sku, on_hand, avg_daily, forecast_30d, reorder_qty, reorder_by, lead_time, moq,
         unit_cost, status, reason⟩

/-- The `for sku, g in df.groupby("SKU")` loop: process each group in
order, propagating the first raised error (which aborts the request). -/
def processAll (today horizon : ℤ) (hasMOQ hasCost : Bool) :
    List (String × List Row) → Except RecError (List Recommendation)
  | [] => .ok []
  | sg :: rest =>
    match processSKU today horizon hasMOQ hasCost sg.1 sg.2 with
    | .error e => .error e
    | .ok r =>
      match processAll today horizon hasMOQ hasCost rest with
      | .error e => .error e
      | .ok rs => .ok (r :: rs)

/-- order = {"RED": 0, "AMBER": 1, "GREEN": 2}; `order.get(status, 9)`. -/
def rank (s : String) : ℕ :=
  if s = "RED" then 0 else if s = "AMBER" then 1 else if s = "GREEN" then 2 else 9

/-- The comparison behind `recs.sort(key=lambda r: (order.get(r.status, 9),
-r.reorder_qty))`: ascending lexicographic order on the key tuple. -/
def recBefore (r s : Recommendation) : Prop :=
  rank r.status < rank s.status ∨ (rank r.status = rank s.status ∧ s.reorder_qty ≤ r.reorder_qty)

instance : DecidableRel recBefore := fun r s => by
  unfold recBefore
  infer_instance

/-- recs.sort(...): Python list.sort is a stable ascending sort by the key;
we model it with the stable insertion sort. -/
def sortRecs (recs : List Recommendation) : List Recommendation :=
  List.insertionSort recBefore recs

/-- Ascending key order for `df.groupby("SKU")` (pandas sorts group keys). -/
def skuLe (a b : String) : Prop := a ≤ b

instance : DecidableRel skuLe := fun a b => inferInstanceAs (Decidable (a ≤ b))

/-- The distinct SKU values in ascending order, as pandas groupby yields
the groups. -/
def sortedUniqueSkus (rows : List Row) : List String :=
  List.insertionSort skuLe ((rows.map (fun r => r.sku)).eraseDups)

/-- compute_recommendations(df, horizon_days) from `backend/main.py`
(authenticated variant), with the ambient `date.today()` passed explicitly
as `today`.  Checks required columns, drops rows with unparseable dates,
groups by SKU, processes each group, and sorts the results. -/
def compute_recommendations (today : ℤ) (df : Table) (horizon_days : ℤ) :
    Except RecError (List Recommendation) :=
  let missing := REQUIRED_COLS.filter (fun c => decide (c ∉ df.cols))
  if missing.isEmpty then
    let rows := df.rows.filter (fun r => r.date.isSome)
    let hasMOQ := decide ("MOQ" ∈ df.cols)
    let hasCost := decide ("Cost" ∈ df.cols)
    match processAll today horizon_days hasMOQ hasCost
        ((sortedUniqueSkus rows).map (fun s => (s, rows.filter (fun r => decide (r.sku = s))))) with
    | .error e => .error e
    | .ok recs => .ok (sortRecs recs)
  else .error (.missingColumns missing)

/-!
The unauthenticated variant `backend/app/main.py` contains its own full
copy of the computational code (REQUIRED_COLS, `_ceil_to_moq`,
`_parse_date_series`, `compute_recommendations`, the sort key dict); the
two files differ only in the HTTP/auth wrapper, which is out of scope.  We
embed that copy separately, line for line, in the `AppVariant` namespace.
The pydantic `Recommendation` model and the cell representations are
field-for-field identical in the two files, so the shared structures
`Row`/`Table`/`Recommendation`/`RecError`/`PFloat` and the models of
Python builtins (`truncQ` for `int()`, `fmtF` for f-string formatting,
`meanOpt` for `Series.mean`) serve both embeddings.
-/

namespace AppVariant

/-- REQUIRED_COLS of the unauthenticated file. -/
def REQUIRED_COLS : List String := ["SKU", "Date", "UnitsSold", "OnHand", "LeadTimeDays"]

/-- Date sort key (unauthenticated copy). -/
def dateKey (r : Row) : ℤ := r.date.getD 0

/-- Row order for `g.sort_values("Date")` (unauthenticated copy). -/
def dateLe (a b : Row) : Prop := dateKey a ≤ dateKey b

instance : DecidableRel dateLe := fun a b => inferInstanceAs (Decidable (dateKey a ≤ dateKey b))

/-- g.sort_values("Date") (unauthenticated copy). -/
def sortByDate (g : List Row) : List Row := List.insertionSort dateLe g

/-- g["Date"].max() (unauthenticated copy). -/
def maxDateOf : List Row → ℤ
  | [] => 0
  | [r] => dateKey r
  | r :: rs => max (dateKey r) (maxDateOf rs)

/-- Placeholder row (unauthenticated copy). -/
def defaultRow : Row := ⟨"", none, none, none, none, none, none⟩

/-- Last row of the group (unauthenticated copy). -/
def lastRow (gs : List Row) : Row := gs.getLastD defaultRow

/-- The 28-day demand window with its empty fallback (unauthenticated copy). -/
def recentWindow (gs : List Row) : List Row :=
  let w := gs.filter (fun r => decide (maxDateOf gs - 28 ≤ dateKey r))
  if w.isEmpty then gs else w

/-- Per-day aggregation and mean (unauthenticated copy). -/
def avgDaily (recent : List Row) : ℚ :=
  let ds := (recent.map dateKey).eraseDups
  if ds.isEmpty then 0
  else (ds.map (fun d =>
    ((recent.filter (fun r => decide (dateKey r = d))).map (fun r => r.unitsSold.getD 0)).sum)).sum
      / (ds.length : ℚ)

/-- target_stock (unauthenticated copy). -/
def targetStock (avg : ℚ) (horizon lead : ℤ) : ℚ := avg * ((horizon + max lead 0 : ℤ) : ℚ)

/-- reorder_qty_raw (unauthenticated copy). -/
def rawQty (target : ℚ) (on_hand : Option ℚ) : ℚ :=
  match on_hand with
  | some q => max 0 (target - q)
  | none => 0

/-- _ceil_to_moq (unauthenticated copy). -/
def ceil_to_moq (qty : ℚ) (moq : Option ℤ) : ℚ :=
  match moq with
  | none => max 0 qty
  | some m =>
    if m ≤ 0 then max 0 qty
    else if qty ≤ 0 then 0
    else ((⌈qty / (m : ℚ)⌉ * m : ℤ) : ℚ)

/-- days_until_stockout (unauthenticated copy). -/
def daysUntilStockout (on_hand : Option ℚ) (avg : ℚ) : PFloat :=
  if 0 < avg then
    match on_hand with
    | some q => .fin (q / avg)
    | none => .nan
  else .inf

/-- reorder_by (unauthenticated copy). -/
def reorderByDate (today : ℤ) (dus : PFloat) (lead : ℤ) : Option ℤ :=
  match dus with
  | .fin d => some (today + max 0 ⌊d - (lead : ℚ)⌋)
  | _ => none

/-- Status classification (unauthenticated copy). -/
def statusOf (avg : ℚ) (dus : PFloat) (lead : ℤ) : String :=
  if avg = 0 then "GREEN"
  else if dus.leZ ((lead : ℤ) : ℚ) then "RED"
  else if dus.leZ (((lead + 7 : ℤ)) : ℚ) then "AMBER"
  else "GREEN"

/-- Trend annotation (unauthenticated copy). -/
def trendNote (gs : List Row) : String :=
  let m := maxDateOf gs
  let recent14 := gs.filter (fun r => decide (m - 14 ≤ dateKey r))
  let prev14 := gs.filter (fun r => decide (dateKey r < m - 14 ∧ m - 28 ≤ dateKey r))
  if recent14.isEmpty || prev14.isEmpty then ""
  else
    match meanOpt (prev14.map (fun r => r.unitsSold)) with
    | none => ""
    | some p =>
      if 0 < p then
        match meanOpt (recent14.map (fun r => r.unitsSold)) with
        | none => ""
        | some r =>
          let pct := (r - p) / p * 100
          if 10 ≤ (if pct < 0 then -pct else pct) then
            " Demand changed ~" ++ fmtF pct 0 ++ "% vs prior 2 weeks."
          else ""
      else ""

/-- Reason f-string (unauthenticated copy). -/
def mkReason (avg : ℚ) (lead horizon : ℤ) (forecast qty : ℚ) (note : String) : String :=
  "Avg daily sales " ++ fmtF avg 1 ++ ". Lead time " ++ toString lead ++ "d. " ++
  "Forecast next " ++ toString horizon ++ "d " ++ fmtF forecast 0 ++ ". " ++
  "Recommend reorder " ++ fmtF qty 0 ++ " to cover horizon + lead time." ++ note

/-- Per-SKU loop body (unauthenticated copy). -/
def processSKU (today horizon : ℤ) (hasMOQ hasCost : Bool) (sku : String) (g : List Row) :
    Except RecError Recommendation :=
  let gs := sortByDate g
  let last := lastRow gs
  let on_hand : Option ℚ := last.onHand
  match last.leadTimeDays with
  | none => .error .nanToInt
  | some ltq =>
    let lead_time : ℤ := truncQ ltq
    let moq : Option ℤ := (if hasMOQ then last.moq else none).map truncQ
    let unit_cost : Option ℚ := if hasCost then last.cost else none
    let avg_daily : ℚ := avgDaily (recentWindow gs)
    let forecast_30d : ℚ := avg_daily * (horizon : ℚ)
    let reorder_qty : ℚ := ceil_to_moq (rawQty (targetStock avg_daily horizon lead_time) on_hand) moq
    let dus : PFloat := daysUntilStockout on_hand avg_daily
    let reorder_by : Option ℤ := reorderByDate today dus lead_time
    let status : String := statusOf avg_daily dus lead_time
    let reason : String :=
      if avg_daily = 0 then "No recent sales detected; no reorder recommendation."
      else mkReason avg_daily lead_time horizon forecast_30d reorder_qty (trendNote gs)
    .ok ⟨sku, on_hand, avg_daily, forecast_30d, reorder_qty, reorder_by, lead_time, moq,
         unit_cost, status, reason⟩

/-- Group loop (unauthenticated copy). -/
def processAll (today horizon : ℤ) (hasMOQ hasCost : Bool) :
    List (String × List Row) → Except RecError (List Recommendation)
  | [] => .ok []
  | sg :: rest =>
    match processSKU today horizon hasMOQ hasCost sg.1 sg.2 with
    | .error e => .error e
    | .ok r =>
      match processAll today horizon hasMOQ hasCost rest with
      | .error e => .error e
      | .ok rs => .ok (r :: rs)

/-- Sort key dict (unauthenticated copy). -/
def rank (s : String) : ℕ :=
  if s = "RED" then 0 else if s = "AMBER" then 1 else if s = "GREEN" then 2 else 9

/-- Ascending order on the sort key tuple (unauthenticated copy). -/
def recBefore (r s : Recommendation) : Prop :=
  rank r.status < rank s.status ∨ (rank r.status = rank s.status ∧ s.reorder_qty ≤ r.reorder_qty)

instance : DecidableRel recBefore := fun r s => by
  unfold recBefore
  infer_instance

/-- Final stable sort (unauthenticated copy). -/
def sortRecs (recs : List Recommendation) : List Recommendation :=
  List.insertionSort recBefore recs

/-- Group key order (unauthenticated copy). -/
def skuLe (a b : String) : Prop := a ≤ b

instance : DecidableRel skuLe := fun a b => inferInstanceAs (Decidable (a ≤ b))

/-- Distinct SKUs ascending (unauthenticated copy). -/
def sortedUniqueSkus (rows : List Row) : List String :=
  List.insertionSort skuLe ((rows.map (fun r => r.sku)).eraseDups)

/-- compute_recommendations from `backend/app/main.py`. -/
def compute_recommendations (today : ℤ) (df : Table) (horizon_days : ℤ) :
    Except RecError (List Recommendation) :=
  let missing := REQUIRED_COLS.filter (fun c => decide (c ∉ df.cols))
  if missing.isEmpty then
    let rows := df.rows.filter (fun r => r.date.isSome)
    let hasMOQ := decide ("MOQ" ∈ df.cols)
    let hasCost := decide ("Cost" ∈ df.cols)
    match processAll today horizon_days hasMOQ hasCost
        ((sortedUniqueSkus rows).map (fun s => (s, rows.filter (fun r => decide (r.sku = s))))) with
    | .error e => .error e
    | .ok recs => .ok (sortRecs recs)
  else .error (.missingColumns missing)

end AppVariant

/-!
Concrete inputs used by the witnesses and counterexamples below.
-/

/-- A table missing UnitsSold, OnHand and LeadTimeDays. -/
def tMissing : Table := ⟨["SKU", "Date"], []⟩

/-- One SKU whose single (hence chronologically last) row has an
unparseable `LeadTimeDays` cell (`NaN` after coercion). -/
def tLeadNaN : Table := ⟨REQUIRED_COLS, [⟨"A", some 0, some 5, some 10, none, none, none⟩]⟩

/-- One SKU whose last row has an unparseable `OnHand` cell. -/
def tOnHandNaN : Table := ⟨REQUIRED_COLS, [⟨"A", some 0, some 5, none, some 2, none, none⟩]⟩

/-- One SKU with negative `UnitsSold` (a returns row), giving a negative
average daily sales. -/
def tNegSales : Table := ⟨REQUIRED_COLS, [⟨"A", some 0, some (-1), some 10, some 2, none, none⟩]⟩

/-- A table with a `MOQ` column whose last-row value is negative. -/
def tNegMOQ : Table :=
  ⟨REQUIRED_COLS ++ ["MOQ"], [⟨"A", some 0, some 1, some 0, some 2, some (-5), none⟩]⟩

/-- One SKU, one row, zero sales. -/
def tZero : Table := ⟨REQUIRED_COLS, [⟨"A", some 0, some 0, some 5, some 3, none, none⟩]⟩

/-- The recommendation `compute_recommendations` produces for `tZero`. -/
def rZero : Recommendation :=
  ⟨"A", some 5, 0, 0, 0, none, 3, none, none, "GREEN",
   "No recent sales detected; no reorder recommendation."⟩

/-- A zero-sales group with `MOQ = 0` on its last row. -/
def gMOQ0 : List Row := [⟨"A", some 0, some 0, some 1, some 4, some 0, none⟩]

/-- The recommendation produced for `gMOQ0` (with the MOQ column present). -/
def rMOQ0 : Recommendation :=
  ⟨"A", some 1, 0, 0, 0, none, 4, some 0, none, "GREEN",
   "No recent sales detected; no reorder recommendation."⟩

/-- A recommendation with a given status and reorder quantity, other
fields fixed; used for the sort-order example. -/
def exRec (st : String) (q : ℚ) : Recommendation :=
  ⟨"S", some 0, 0, 0, q, none, 0, none, none, st, ""⟩

/-- One SKU, one row, zero sales (second copy, distinct SKU name). -/
def tOne : Table := ⟨REQUIRED_COLS, [⟨"B", some 0, some 0, some 1, some 1, none, none⟩]⟩

/-- The output list `compute_recommendations` produces for `tOne`. -/
def recsOne : List Recommendation :=
  [⟨"B", some 1, 0, 0, 0, none, 1, none, none, "GREEN",
    "No recent sales detected; no reorder recommendation."⟩]

/-- A one-row group used for the demand-window witness. -/
def gOne : List Row := [⟨"C", some 5, some 1, some 1, some 1, none, none⟩]

instance : IsTotal Recommendation recBefore :=
  ⟨fun r s => by
    unfold recBefore
    rcases Nat.lt_trichotomy (rank r.status) (rank s.status) with h | h | h
    · exact Or.inl (Or.inl h)
    · rcases le_total s.reorder_qty r.reorder_qty with hq | hq
      · exact Or.inl (Or.inr ⟨h, hq⟩)
      · exact Or.inr (Or.inr ⟨h.symm, hq⟩)
    · exact Or.inr (Or.inl h)⟩

instance : IsTrans Recommendation recBefore :=
  ⟨fun a b c hab hbc => by
    unfold recBefore at *
    rcases hab with h1 | ⟨h1, q1⟩ <;> rcases hbc with h2 | ⟨h2, q2⟩
    · exact Or.inl (h1.trans h2)
    · exact Or.inl (by omega)
    · exact Or.inl (by omega)
    · exact Or.inr ⟨h1.trans h2, q2.trans q1⟩⟩

/-!
Helper lemmas shared by several claims.
-/

/-- A non-empty group attains its maximum date. -/
theorem exists_max_date : ∀ (g : List Row), g ≠ [] → ∃ r ∈ g, maxDateOf g = dateKey r := by
  intro g
  induction g with
  | nil => intro h; exact absurd rfl h
  | cons a t ih =>
    intro _
    cases t with
    | nil => exact ⟨a, List.mem_singleton_self a, rfl⟩
    | cons b u =>
      obtain ⟨r, hr, hmax⟩ := ih (by simp)
      by_cases hc : dateKey a ≤ maxDateOf (b :: u)
      · exact ⟨r, List.mem_cons_of_mem a hr, by
          show max (dateKey a) (maxDateOf (b :: u)) = dateKey r
          rw [max_eq_right hc, hmax]⟩
      · exact ⟨a, List.mem_cons_self a _, by
          show max (dateKey a) (maxDateOf (b :: u)) = dateKey a
          exact max_eq_left (le_of_not_le hc)⟩

/-- The per-SKU routine never raises the missing-columns error (its only
raise site is `int(NaN)`). -/
theorem processSKU_ne_missing (today horizon : ℤ) (hM hC : Bool) (sku : String)
    (g : List Row) (ms : List String) :
    processSKU today horizon hM hC sku g ≠ .error (.missingColumns ms) := by
  unfold processSKU
  cases h : (lastRow (sortByDate g)).leadTimeDays <;> simp [h]

/-- Neither does the group loop. -/
theorem processAll_ne_missing (today horizon : ℤ) (hM hC : Bool) (ms : List String) :
    ∀ l, processAll today horizon hM hC l ≠ .error (.missingColumns ms) := by
  intro l
  induction l with
  | nil => simp [processAll]
  | cons a t ih =>
    intro hcontra
    unfold processAll at hcontra
    cases hp : processSKU today horizon hM hC a.1 a.2 with
    | error e =>
      rw [hp] at hcontra
      have he : e = .missingColumns ms := by simpa using hcontra
      exact processSKU_ne_missing today horizon hM hC a.1 a.2 ms (he ▸ hp)
    | ok r =>
      rw [hp] at hcontra
      cases ht : processAll today horizon hM hC t with
      | error e2 =>
        rw [ht] at hcontra
        have he : e2 = .missingColumns ms := by simpa using hcontra
        exact ih (he ▸ ht)
      | ok rs =>
        rw [ht] at hcontra
        simp at hcontra

/-- daysUntilStockout collapses to `inf` when avg_daily is not positive. -/
theorem daysUntilStockout_nonpos (oh : Option ℚ) {a : ℚ} (ha : ¬ 0 < a) :
    daysUntilStockout oh a = .inf := by
  simp [daysUntilStockout, ha]

/-- statusOf at zero average demand. -/
theorem statusOf_zero (dus : PFloat) (lead : ℤ) : statusOf 0 dus lead = "GREEN" := by
  simp [statusOf]

/-- Inversion of one successful per-SKU iteration: the zero-demand
short-circuit fields, and the exact condition for a null reorder-by date
(`math.isfinite(days_until_stockout)` fails exactly when avg_daily is not
positive or on-hand is NaN). -/
theorem processSKU_ok_props (today horizon : ℤ) (hM hC : Bool) (sku : String) (g : List Row)
    (r : Recommendation) (h : processSKU today horizon hM hC sku g = .ok r) :
    (r.avg_daily_sales = 0 → r.status = "GREEN" ∧ r.reorder_by = none ∧
      r.reason = "No recent sales detected; no reorder recommendation.") ∧
    (r.reorder_by = none ↔ ¬ (0 < r.avg_daily_sales ∧ r.current_stock.isSome = true)) := by
  simp only [processSKU] at h
  cases hlt : (lastRow (sortByDate g)).leadTimeDays with
  | none =>
    rw [hlt] at h
    exact absurd h (by simp)
  | some ltq =>
    rw [hlt] at h
    have hr : _ = r := (Except.ok.injEq _ _).mp h
    subst hr
    dsimp only
    constructor
    · intro h0
      rw [h0]
      refine ⟨statusOf_zero _ _, ?_, ?_⟩
      · rw [daysUntilStockout_nonpos _ (lt_irrefl 0)]
        rfl
      · rw [if_pos rfl]
    · by_cases ha : 0 < avgDaily (recentWindow (sortByDate g))
      · cases hoh : (lastRow (sortByDate g)).onHand with
        | some q => simp [daysUntilStockout, ha, hoh, reorderByDate]
        | none => simp [daysUntilStockout, ha, hoh, reorderByDate]
      · simp [daysUntilStockout, ha, reorderByDate]

/-- Every recommendation returned by the group loop comes from one group. -/
theorem mem_processAll_ok {today horizon : ℤ} {hM hC : Bool} :
    ∀ {l : List (String × List Row)} {rs : List Recommendation},
      processAll today horizon hM hC l = .ok rs → ∀ r ∈ rs,
        ∃ p ∈ l, processSKU today horizon hM hC p.1 p.2 = .ok r := by
  intro l
  induction l with
  | nil =>
    intro rs h r hr
    simp only [processAll] at h
    obtain rfl : ([] : List Recommendation) = rs := by simpa using h
    simp at hr
  | cons a t ih =>
    intro rs h r hr
    unfold processAll at h
    cases hp : processSKU today horizon hM hC a.1 a.2 with
    | error e => rw [hp] at h; exact absurd h (by simp)
    | ok r0 =>
      rw [hp] at h
      cases ht : processAll today horizon hM hC t with
      | error e => rw [ht] at h; exact absurd h (by simp)
      | ok rs0 =>
        rw [ht] at h
        obtain rfl : r0 :: rs0 = rs := by simpa using h
        rcases List.mem_cons.mp hr with rfl | hmem
        · exact ⟨a, List.mem_cons_self a t, hp⟩
        · obtain ⟨p, hpt, hps⟩ := ih ht r hmem
          exact ⟨p, List.mem_cons_of_mem a hpt, hps⟩

/-- Every recommendation in a successful `compute_recommendations` output
is the result of `processSKU` on some group. -/
theorem mem_compute_ok {today horizon : ℤ} {df : Table} {recs : List Recommendation}
    (h : compute_recommendations today df horizon = .ok recs)
    (r : Recommendation) (hr : r ∈ recs) :
    ∃ sku g, processSKU today horizon (decide ("MOQ" ∈ df.cols))
      (decide ("Cost" ∈ df.cols)) sku g = .ok r := by
  simp only [compute_recommendations] at h
  split at h
  · split at h
    · exact absurd h (by simp)
    · rename_i rs heq
      obtain rfl : sortRecs rs = recs := by simpa using h
      have hmem : r ∈ rs := ((List.perm_insertionSort recBefore rs).mem_iff).mp hr
      obtain ⟨p, _, hps⟩ := mem_processAll_ok heq r hmem
      exact ⟨p.1, p.2, hps⟩
  · exact absurd h (by simp)

/-- C8: for every non-empty SKU group, the 28-day demand-window selection
(rows with date at least the maximum date minus 28) is non-empty, because
the row carrying the maximum date always satisfies the cutoff; hence
`recentWindow` never takes the fallback branch that substitutes the full
group, i.e. it returns exactly the filtered selection. -/
theorem c8_window_nonempty (g : List Row) (h : g ≠ []) :
    g.filter (fun r => decide (maxDateOf g - 28 ≤ dateKey r)) ≠ [] ∧
    recentWindow g = g.filter (fun r => decide (maxDateOf g - 28 ≤ dateKey r)) := by
  obtain ⟨r, hr, hmax⟩ := exists_max_date g h
  have hmem : r ∈ g.filter (fun r => decide (maxDateOf g - 28 ≤ dateKey r)) := by
    rw [List.mem_filter]
    refine ⟨hr, ?_⟩
    rw [decide_eq_true_iff]
    omega
  have hne : g.filter (fun r => decide (maxDateOf g - 28 ≤ dateKey r)) ≠ [] := by
    intro hnil
    rw [hnil] at hmem
    exact List.not_mem_nil r hmem
  refine ⟨hne, ?_⟩
  unfold recentWindow
  rw [if_neg]
  simpa [List.isEmpty_iff] using hne

/-- Witness for C8 at a concrete one-row group. -/
theorem c8_window_nonempty_witness :
    recentWindow gOne = gOne.filter (fun r => decide (maxDateOf gOne - 28 ≤ dateKey r)) :=
  (c8_window_nonempty gOne (by with_unfolding_all decide)).2

/-- C1: for any table missing one or more required columns,
`compute_recommendations` fails with the missing-columns error, whose list
contains exactly the absent required columns and no others; being an
`Except.error`, no partial output accompanies it.  For any table
containing all five required columns, this error is never raised
(regardless of whether the run later fails on `int(NaN)`). -/
theorem c1_column_guard (today horizon : ℤ) (df : Table) :
    ((∃ c ∈ REQUIRED_COLS, c ∉ df.cols) →
      ∃ ms, compute_recommendations today df horizon = .error (.missingColumns ms) ∧
        ∀ c, c ∈ ms ↔ (c ∈ REQUIRED_COLS ∧ c ∉ df.cols)) ∧
    ((∀ c ∈ REQUIRED_COLS, c ∈ df.cols) →
      ∀ ms, compute_recommendations today df horizon ≠ .error (.missingColumns ms)) := by
  constructor
  · rintro ⟨c, hc, hnc⟩
    refine ⟨REQUIRED_COLS.filter (fun c => decide (c ∉ df.cols)), ?_, ?_⟩
    · have hne : REQUIRED_COLS.filter (fun c => decide (c ∉ df.cols)) ≠ [] := by
        intro hnil
        have hmem : c ∈ REQUIRED_COLS.filter (fun c => decide (c ∉ df.cols)) :=
          List.mem_filter.mpr ⟨hc, by rw [decide_eq_true_iff]; exact hnc⟩
        rw [hnil] at hmem
        exact List.not_mem_nil c hmem
      simp only [compute_recommendations]
      rw [if_neg]
      simpa [List.isEmpty_iff] using hne
    · intro x
      simp [List.mem_filter]
  · intro hall ms
    have hempt : REQUIRED_COLS.filter (fun c => decide (c ∉ df.cols)) = [] := by
      rw [List.filter_eq_nil_iff]
      intro a ha
      simpa using hall a ha
    simp only [compute_recommendations]
    rw [hempt]
    simp only [List.isEmpty_nil, if_true]
    intro hcontra
    split at hcontra
    · rename_i e heq
      have he : e = .missingColumns ms := by simpa using hcontra
      exact processAll_ne_missing today horizon _ _ ms _ (he ▸ heq)
    · simp at hcontra

/-- Witness for C1 at a table missing three required columns. -/
theorem c1_column_guard_witness :
    ∃ ms, compute_recommendations 0 tMissing 30 = .error (.missingColumns ms) ∧
      ∀ c, c ∈ ms ↔ (c ∈ REQUIRED_COLS ∧ c ∉ tMissing.cols) :=
  (c1_column_guard 0 30 tMissing).1 ⟨"UnitsSold", by decide, by with_unfolding_all decide⟩

/-- C2 (code bug): the claim promises that a table passing the column
check never raises, and that a missing or unparseable `OnHand` or
`LeadTimeDays` on the last row defaults to 0.  The code instead uses
`x or 0`, and `NaN` is truthy in Python: with an unparseable
`LeadTimeDays` cell on the last row, `int(NaN)` raises `ValueError`
(first conjunct), and with an unparseable `OnHand` the `NaN` passes
through to `current_stock` instead of 0 (second conjunct). -/
theorem c2_nan_snapshot_code_bug :
    compute_recommendations 0 tLeadNaN 30 = .error .nanToInt ∧
    ((compute_recommendations 0 tOnHandNaN 30).toOption.getD []).map
      (fun r => r.current_stock) = [none] := by
  with_unfolding_all decide

/-- C10: compute_recommendations is a pure function of the ambient date,
the table and the horizon: two runs on the same inputs return the same
value.  (The embedding makes the one ambient input, `date.today()`, an
explicit parameter; the Python body reads no other external state.) -/
theorem c10_deterministic (today : ℤ) (df : Table) (horizon_days : ℤ)
    (r1 r2 : Except RecError (List Recommendation))
    (h1 : compute_recommendations today df horizon_days = r1)
    (h2 : compute_recommendations today df horizon_days = r2) : r1 = r2 :=
  h1.symm.trans h2

/-- Witness for C10 at a concrete run. -/
theorem c10_deterministic_witness :
    compute_recommendations 0 tZero 30 = compute_recommendations 0 tZero 30 :=
  c10_deterministic 0 tZero 30 _ _ rfl rfl


/-!
Pointwise equality of the `AppVariant` copies with the main embedding,
building up to claim C9.  The non-recursive copies are definitionally
equal; the recursive ones need induction.
-/

theorem appVariant_dateKey_eq : AppVariant.dateKey = dateKey := rfl

theorem appVariant_sortByDate_eq : AppVariant.sortByDate = sortByDate := rfl

theorem appVariant_lastRow_eq : AppVariant.lastRow = lastRow := rfl

theorem appVariant_avgDaily_eq : AppVariant.avgDaily = avgDaily := rfl

theorem appVariant_targetStock_eq : AppVariant.targetStock = targetStock := rfl

theorem appVariant_rawQty_eq : AppVariant.rawQty = rawQty := rfl

theorem appVariant_ceil_to_moq_eq : AppVariant.ceil_to_moq = ceil_to_moq := rfl

theorem appVariant_daysUntilStockout_eq : AppVariant.daysUntilStockout = daysUntilStockout := rfl

theorem appVariant_reorderByDate_eq : AppVariant.reorderByDate = reorderByDate := rfl

theorem appVariant_statusOf_eq : AppVariant.statusOf = statusOf := rfl

theorem appVariant_mkReason_eq : AppVariant.mkReason = mkReason := rfl

theorem appVariant_rank_eq : AppVariant.rank = rank := rfl

theorem appVariant_sortRecs_eq : AppVariant.sortRecs = sortRecs := rfl

theorem appVariant_sortedUniqueSkus_eq : AppVariant.sortedUniqueSkus = sortedUniqueSkus := rfl

theorem appVariant_REQUIRED_COLS_eq : AppVariant.REQUIRED_COLS = REQUIRED_COLS := rfl

theorem appVariant_maxDateOf_eq : ∀ g, AppVariant.maxDateOf g = maxDateOf g := by
  intro g
  induction g with
  | nil => rfl
  | cons a t ih =>
    cases t with
    | nil => rfl
    | cons b u =>
      show max (AppVariant.dateKey a) (AppVariant.maxDateOf (b :: u)) =
        max (dateKey a) (maxDateOf (b :: u))
      rw [ih, appVariant_dateKey_eq]

theorem appVariant_recentWindow_eq : ∀ gs, AppVariant.recentWindow gs = recentWindow gs := by
  intro gs
  simp only [AppVariant.recentWindow, recentWindow, appVariant_maxDateOf_eq,
    appVariant_dateKey_eq]

theorem appVariant_trendNote_eq : ∀ gs, AppVariant.trendNote gs = trendNote gs := by
  intro gs
  simp only [AppVariant.trendNote, trendNote, appVariant_maxDateOf_eq, appVariant_dateKey_eq]

theorem appVariant_processSKU_eq (today horizon : ℤ) (hM hC : Bool) (sku : String)
    (g : List Row) :
    AppVariant.processSKU today horizon hM hC sku g = processSKU today horizon hM hC sku g := by
  simp only [AppVariant.processSKU, processSKU, appVariant_sortByDate_eq, appVariant_lastRow_eq,
    appVariant_recentWindow_eq, appVariant_trendNote_eq, appVariant_avgDaily_eq,
    appVariant_targetStock_eq, appVariant_rawQty_eq, appVariant_ceil_to_moq_eq,
    appVariant_daysUntilStockout_eq, appVariant_reorderByDate_eq, appVariant_statusOf_eq,
    appVariant_mkReason_eq]

theorem appVariant_processAll_eq (today horizon : ℤ) (hM hC : Bool) :
    ∀ l, AppVariant.processAll today horizon hM hC l = processAll today horizon hM hC l := by
  intro l
  induction l with
  | nil => rfl
  | cons a t ih =>
    show (match AppVariant.processSKU today horizon hM hC a.1 a.2 with
      | Except.error e => Except.error e
      | Except.ok r =>
        match AppVariant.processAll today horizon hM hC t with
        | Except.error e => Except.error e
        | Except.ok rs => Except.ok (r :: rs)) = _
    rw [ih, appVariant_processSKU_eq]
    rfl

/-- C9: the authenticated and the unauthenticated variants of
`compute_recommendations` are extensionally equal: on every ambient date,
table and horizon they return the same value (same error or identical
recommendation lists).  The two embedded bodies are copies of one another,
exactly as the two Python files are. -/
theorem c9_variants_equal (today : ℤ) (df : Table) (horizon_days : ℤ) :
    compute_recommendations today df horizon_days =
      AppVariant.compute_recommendations today df horizon_days := by
  simp only [compute_recommendations, AppVariant.compute_recommendations,
    appVariant_processAll_eq, appVariant_sortRecs_eq, appVariant_sortedUniqueSkus_eq,
    appVariant_REQUIRED_COLS_eq]

/-- statusOf for a finite stockout projection and non-zero average demand
reduces to the two threshold comparisons. -/
theorem statusOf_fin (a d : ℚ) (lead : ℤ) (ha : a ≠ 0) :
    statusOf a (.fin d) lead =
      if d ≤ (lead : ℚ) then "RED" else if d ≤ (lead : ℚ) + 7 then "AMBER" else "GREEN" := by
  unfold statusOf PFloat.leZ
  rw [if_neg ha]
  have hcast : (((lead + 7 : ℤ)) : ℚ) = (lead : ℚ) + 7 := by push_cast; ring
  rw [hcast]
  by_cases h1 : d ≤ (lead : ℚ) <;> by_cases h2 : d ≤ (lead : ℚ) + 7 <;> simp [h1, h2]

/-- C3: for positive average demand, with days_until_stockout =
on_hand / avg_daily_sales, the status is RED exactly on
days_until_stockout ≤ lead_time, AMBER exactly on
lead_time < days_until_stockout ≤ lead_time + 7, and GREEN exactly
otherwise; including the three boundary examples of the specification
(lead_time 5, avg 2, on-hand 8 / 12 / 30). -/
theorem c3_status_boundaries (avg oh : ℚ) (lead : ℤ) (h : 0 < avg) :
    (statusOf avg (daysUntilStockout (some oh) avg) lead = "RED" ↔ oh / avg ≤ (lead : ℚ)) ∧
    (statusOf avg (daysUntilStockout (some oh) avg) lead = "AMBER" ↔
      ((lead : ℚ) < oh / avg ∧ oh / avg ≤ (lead : ℚ) + 7)) ∧
    (statusOf avg (daysUntilStockout (some oh) avg) lead = "GREEN" ↔ (lead : ℚ) + 7 < oh / avg) ∧
    statusOf 2 (daysUntilStockout (some 8) 2) 5 = "RED" ∧
    statusOf 2 (daysUntilStockout (some 12) 2) 5 = "AMBER" ∧
    statusOf 2 (daysUntilStockout (some 30) 2) 5 = "GREEN" := by
  have hd : daysUntilStockout (some oh) avg = .fin (oh / avg) := by
    simp [daysUntilStockout, h]
  rw [hd, statusOf_fin _ _ _ h.ne']
  refine ⟨?_, ?_, ?_, by with_unfolding_all decide, by with_unfolding_all decide,
    by with_unfolding_all decide⟩ <;>
    rcases le_or_lt (oh / avg) ((lead : ℚ)) with h1 | h1
  · rw [if_pos h1]
    exact iff_of_true rfl h1
  · rcases le_or_lt (oh / avg) ((lead : ℚ) + 7) with h2 | h2
    · rw [if_neg (not_le.mpr h1), if_pos h2]
      exact iff_of_false (by decide) (not_le.mpr h1)
    · rw [if_neg (not_le.mpr h1), if_neg (not_le.mpr h2)]
      exact iff_of_false (by decide) (by intro hc; linarith)
  · rw [if_pos h1]
    exact iff_of_false (by decide) (fun hc => absurd h1 (not_le.mpr hc.1))
  · rcases le_or_lt (oh / avg) ((lead : ℚ) + 7) with h2 | h2
    · rw [if_neg (not_le.mpr h1), if_pos h2]
      exact iff_of_true rfl ⟨h1, h2⟩
    · rw [if_neg (not_le.mpr h1), if_neg (not_le.mpr h2)]
      exact iff_of_false (by decide) (fun hc => absurd hc.2 (not_le.mpr h2))
  · rw [if_pos h1]
    exact iff_of_false (by decide) (by intro hc; linarith)
  · rcases le_or_lt (oh / avg) ((lead : ℚ) + 7) with h2 | h2
    · rw [if_neg (not_le.mpr h1), if_pos h2]
      exact iff_of_false (by decide) (fun hc => absurd h2 (not_le.mpr hc))
    · rw [if_neg (not_le.mpr h1), if_neg (not_le.mpr h2)]
      exact iff_of_true rfl h2

/-- Witness for C3: the RED boundary example. -/
theorem c3_status_boundaries_witness :
    statusOf 2 (daysUntilStockout (some 8) 2) 5 = "RED" :=
  (c3_status_boundaries 2 8 5 (by norm_num)).1.mpr (by norm_num)

/-- C4 counterexample: a SKU with negative UnitsSold has
avg_daily_sales = -1 (not 0) and still a null reorder_by, so reorder_by
is not null "exactly when avg_daily_sales is 0" as claimed. -/
theorem c4_reorder_by_counterexample :
    ∃ r ∈ (compute_recommendations 0 tNegSales 30).toOption.getD [],
      r.reorder_by = none ∧ ¬ r.avg_daily_sales = 0 := by
  with_unfolding_all decide

/-- C4 as amended: every output recommendation of a successful run has
the zero-demand short-circuit (avg 0 gives GREEN, null reorder_by, the
fixed reason), and reorder_by is null exactly when no finite stockout is
projected, that is when avg_daily_sales is not positive or the on-hand
snapshot is NaN; for avg_daily_sales > 0 and numeric on-hand it is a
calendar date. -/
theorem c4_zero_demand_amended (today horizon : ℤ) (df : Table) (recs : List Recommendation)
    (h : compute_recommendations today df horizon = .ok recs)
    (r : Recommendation) (hr : r ∈ recs) :
    (r.avg_daily_sales = 0 → r.status = "GREEN" ∧ r.reorder_by = none ∧
      r.reason = "No recent sales detected; no reorder recommendation.") ∧
    (r.reorder_by = none ↔ ¬ (0 < r.avg_daily_sales ∧ r.current_stock.isSome = true)) := by
  obtain ⟨sku, g, hps⟩ := mem_compute_ok h r hr
  exact processSKU_ok_props today horizon _ _ sku g r hps

/-- Witness for C4 at a concrete zero-demand run. -/
theorem c4_zero_demand_amended_witness :
    (rZero.avg_daily_sales = 0 → rZero.status = "GREEN" ∧ rZero.reorder_by = none ∧
      rZero.reason = "No recent sales detected; no reorder recommendation.") ∧
    (rZero.reorder_by = none ↔ ¬ (0 < rZero.avg_daily_sales ∧ rZero.current_stock.isSome = true)) :=
  c4_zero_demand_amended 0 30 tZero [rZero] (by with_unfolding_all decide) rZero
    (List.mem_singleton_self rZero)

/-- C5: the MOQ rounding helper.  For a positive moq: 0 on non-positive
quantities, otherwise the least multiple of moq that is at least the
quantity; for a null or non-positive moq: max(0, qty) with no rounding;
plus the three concrete examples of the specification. -/
theorem c5_moq_rounding (qty : ℚ) (m : ℤ) :
    (0 < m → qty ≤ 0 → ceil_to_moq qty (some m) = 0) ∧
    (0 < m → 0 < qty →
      qty ≤ ceil_to_moq qty (some m) ∧
      (∃ k : ℤ, ceil_to_moq qty (some m) = (k : ℚ) * (m : ℚ)) ∧
      (∀ k : ℤ, qty ≤ (k : ℚ) * (m : ℚ) → ceil_to_moq qty (some m) ≤ (k : ℚ) * (m : ℚ))) ∧
    ceil_to_moq qty none = max 0 qty ∧
    (m ≤ 0 → ceil_to_moq qty (some m) = max 0 qty) ∧
    ceil_to_moq 55 (some 20) = 60 ∧ ceil_to_moq 0 (some 20) = 0 ∧ ceil_to_moq 55 none = 55 := by
  refine ⟨?_, ?_, rfl, ?_, by with_unfolding_all decide, by with_unfolding_all decide,
    by with_unfolding_all decide⟩
  · intro hm hq
    simp only [ceil_to_moq]
    rw [if_neg (not_le.mpr hm), if_pos hq]
  · intro hm hq
    have hm0 : (0 : ℚ) < (m : ℚ) := by exact_mod_cast hm
    have hne : (m : ℚ) ≠ 0 := ne_of_gt hm0
    have hval : ceil_to_moq qty (some m) = (⌈qty / (m : ℚ)⌉ : ℚ) * (m : ℚ) := by
      simp only [ceil_to_moq]
      rw [if_neg (not_le.mpr hm), if_neg (not_le.mpr hq)]
      push_cast
      ring
    refine ⟨?_, ⟨⌈qty / (m : ℚ)⌉, hval⟩, ?_⟩
    · rw [hval]
      have h1 : qty / (m : ℚ) ≤ (⌈qty / (m : ℚ)⌉ : ℚ) := Int.le_ceil _
      calc qty = qty / (m : ℚ) * (m : ℚ) := (div_mul_cancel₀ qty hne).symm
        _ ≤ (⌈qty / (m : ℚ)⌉ : ℚ) * (m : ℚ) := mul_le_mul_of_nonneg_right h1 (le_of_lt hm0)
    · intro k hk
      rw [hval]
      have hdk : qty / (m : ℚ) ≤ (k : ℚ) := (div_le_iff₀ hm0).mpr hk
      have hck : (⌈qty / (m : ℚ)⌉ : ℚ) ≤ (k : ℚ) := by exact_mod_cast Int.ceil_le.mpr hdk
      exact mul_le_mul_of_nonneg_right hck (le_of_lt hm0)
  · intro hm
    simp only [ceil_to_moq]
    rw [if_pos hm]

/-- Witness for C5 at qty 55, moq 20. -/
theorem c5_moq_rounding_witness : (55 : ℚ) ≤ ceil_to_moq 55 (some 20) :=
  ((c5_moq_rounding 55 20).2.1 (by norm_num) (by norm_num)).1

/-- The raw reorder quantity is never negative. -/
theorem rawQty_nonneg (t : ℚ) (oh : Option ℚ) : 0 ≤ rawQty t oh := by
  cases oh <;> simp [rawQty]

/-- A null or non-positive moq applies no rounding at all. -/
theorem ceil_to_moq_of_nopos {x : ℚ} (hx : 0 ≤ x) {moq : Option ℤ}
    (h : moq = none ∨ ∃ m, moq = some m ∧ m ≤ 0) : ceil_to_moq x moq = x := by
  rcases h with rfl | ⟨m, rfl, hm⟩
  · exact max_eq_right hx
  · simp only [ceil_to_moq]
    rw [if_pos hm]
    exact max_eq_right hx

/-- C6 counterexample: a last-row MOQ of -5 is reported in the output moq
field as -5, not as null, so the output moq field is not restricted to
null-or-positive as claimed. -/
theorem c6_moq_passthrough_counterexample :
    ∃ r ∈ (compute_recommendations 0 tNegMOQ 30).toOption.getD [], r.moq = some (-5) := by
  with_unfolding_all decide

/-- C6 as amended: the output moq is the integer truncation of the
last-row MOQ whenever that value is present and parseable, even when it
is zero or negative, and null exactly when it is missing, unparseable or
the column is absent; a null or non-positive moq still causes no rounding
(reorder_qty then equals the unrounded raw quantity). -/
theorem c6_moq_passthrough_amended (today horizon : ℤ) (hM hC : Bool) (sku : String)
    (g : List Row) (r : Recommendation)
    (h : processSKU today horizon hM hC sku g = .ok r) :
    r.moq = (if hM then (lastRow (sortByDate g)).moq else none).map truncQ ∧
    ((r.moq = none ∨ ∃ m, r.moq = some m ∧ m ≤ 0) →
      r.reorder_qty = rawQty (targetStock r.avg_daily_sales horizon r.lead_time_days)
        r.current_stock) := by
  simp only [processSKU] at h
  cases hlt : (lastRow (sortByDate g)).leadTimeDays with
  | none =>
    rw [hlt] at h
    exact absurd h (by simp)
  | some ltq =>
    rw [hlt] at h
    have hr : _ = r := (Except.ok.injEq _ _).mp h
    subst hr
    dsimp only
    exact ⟨rfl, fun hcase => ceil_to_moq_of_nopos (rawQty_nonneg _ _) hcase⟩

/-- Witness for C6 at a concrete zero-MOQ group. -/
theorem c6_moq_passthrough_amended_witness :
    rMOQ0.reorder_qty =
      rawQty (targetStock rMOQ0.avg_daily_sales 30 rMOQ0.lead_time_days) rMOQ0.current_stock :=
  (c6_moq_passthrough_amended 0 30 true false "A" gMOQ0 rMOQ0
    (by with_unfolding_all decide)).2 (Or.inr ⟨0, rfl, le_refl 0⟩)

/-- C7: every successful output list is pairwise ordered by the sort key:
status rank RED before AMBER before GREEN, and within equal status by
reorder quantity descending; and the concrete four-element example of the
specification sorts as stated. -/
theorem c7_sort_order (today horizon : ℤ) (df : Table) (recs : List Recommendation)
    (h : compute_recommendations today df horizon = .ok recs) :
    recs.Pairwise recBefore ∧
    sortRecs [exRec "GREEN" 5, exRec "RED" 1, exRec "AMBER" 9, exRec "RED" 3] =
      [exRec "RED" 3, exRec "RED" 1, exRec "AMBER" 9, exRec "GREEN" 5] := by
  refine ⟨?_, by with_unfolding_all decide⟩
  simp only [compute_recommendations] at h
  split at h
  · split at h
    · exact absurd h (by simp)
    · rename_i rs heq
      obtain rfl : sortRecs rs = recs := by simpa using h
      exact List.sorted_insertionSort recBefore rs
  · exact absurd h (by simp)

/-- Witness for C7 at a concrete run. -/
theorem c7_sort_order_witness :
    recsOne.Pairwise recBefore ∧
    sortRecs [exRec "GREEN" 5, exRec "RED" 1, exRec "AMBER" 9, exRec "RED" 3] =
      [exRec "RED" 3, exRec "RED" 1, exRec "AMBER" 9, exRec "GREEN" 5] :=
  c7_sort_order 0 30 tOne recsOne (by with_unfolding_all decide)
